import Mathlib

/-!
Verification of the canonicalization and change-detection pipeline of the
openwebui-gaits-connector repository.

Shallow embedding of:
  scripts/transform_excel.py   (normalize_status, parse_datetime,
                                collapse_owners, transform, DEFAULT_MAP)
  docker/mock_gaits/app.py     (hash of a row excluding LastUpdated,
                                the delta endpoint)

Python cell values coming out of pandas read_excel with dtype=str are either
strings or the float NaN; a lookup of an absent column via Series.get returns
the Python None object.  The type PyVal covers these three cases.  The two
external parsing capabilities (dateutil parse, pandas to_datetime) are
injected as function parameters, per the DateTimeParser design note of the
specification.
-/

/-- A Python value as it flows through the pipeline: the object None,
the float NaN, or a string. -/
inductive PyVal where
  | pyNone
  | nan
  | str (s : String)
deriving DecidableEq, Repr

/-- Embeds pd.isna: true on None and NaN, false on any string
(including the empty string). -/
def pdIsna : PyVal → Bool
  | PyVal.pyNone => true
  | PyVal.nan => true
  | PyVal.str _ => false

/-- Embeds the Python str() conversion for the three cell shapes. -/
def pyStr : PyVal → String
  | PyVal.pyNone => "None"
  | PyVal.nan => "nan"
  | PyVal.str s => s

/-- Whitespace class used by the Python regular expression class backslash-s
and by str.strip: the ASCII whitespace characters together with the
common Unicode whitespace code points. -/
def isPySpace (c : Char) : Bool :=
  c.toNat = 32 ∨ c.toNat = 9 ∨ c.toNat = 10 ∨ c.toNat = 13 ∨ c.toNat = 11 ∨
  c.toNat = 12 ∨ c.toNat = 28 ∨ c.toNat = 29 ∨ c.toNat = 30 ∨ c.toNat = 31 ∨
  c.toNat = 133 ∨ c.toNat = 160 ∨ c.toNat = 5760 ∨
  (8192 ≤ c.toNat ∧ c.toNat ≤ 8202) ∨ c.toNat = 8232 ∨ c.toNat = 8233 ∨
  c.toNat = 8239 ∨ c.toNat = 8287 ∨ c.toNat = 12288

/-- Embeds str.strip on a character list: drop whitespace from the front,
then from the back. -/
def pyStrip (l : List Char) : List Char :=
  ((l.dropWhile isPySpace).reverse.dropWhile isPySpace).reverse

/-- Embeds str.strip on a String. -/
def pyStripStr (s : String) : String :=
  String.mk (pyStrip s.data)

/-- The fixed status mapping table of normalize_status
(transform_excel.py lines 63 to 71), as the dict literal of the source. -/
def statusTable : List (String × String) :=
  [("Planning", "Planning"),
   ("In Progress", "Construction"),
   ("InDesign", "InDesign"),
   ("Construction", "Construction"),
   ("Completed", "Completed"),
   ("On Hold", "OnHold"),
   ("OnHold", "OnHold")]

/-- Embeds normalize_status (transform_excel.py lines 58 to 73):
strip the raw text, look it up in the fixed case-sensitive table,
fall back to Planning on a miss. -/
def normalize_status (raw : String) : String :=
  (statusTable.lookup (pyStripStr raw)).getD "Planning"

/-- A parsed datetime value as produced by the injected dateutil-style
parsing capability.  Its fields are never consumed by parse_datetime,
because the line after the parse raises before isoformat is reached. -/
structure PyDatetime where
  year : Nat
  month : Nat
  day : Nat
  hour : Nat
  minute : Nat
  second : Nat
deriving DecidableEq, Repr

/-- Embedded Python exceptions raised by the transform script.
valueError raw inner models ValueError with the message
Could not parse date (raw): (inner), keeping the offending raw value
and the inner exception text as structured fields. -/
inductive PyErr where
  | keyError (key : String)
  | attributeError (msg : String)
  | valueError (raw : String) (inner : String)
deriving DecidableEq, Repr

/-- The message of the AttributeError raised by evaluating
datetime.timezone on line 86 of transform_excel.py: line 19 does
from datetime import datetime, so the name datetime denotes the
datetime class, which has no attribute named timezone. -/
def tzAttrErrMsg : String :=
  "AttributeError: type object datetime has no attribute timezone"

/-- Embeds parse_datetime (transform_excel.py lines 76 to 89).
dtP injects the dateutil parser (dt_parser.parse with fuzzy=True).
If the cell is NaN or None the function returns Python None.  Otherwise the
try block first calls the parser; if the parser succeeds, the next
statement dt.replace(tzinfo=datetime.timezone.utc) raises AttributeError
(see tzAttrErrMsg) before any ISO string can be produced; either exception
is caught by the bare except and re-raised as ValueError carrying the raw
value.  Hence every present cell value leads to an error. -/
def parse_datetime (dtP : String → Except String PyDatetime) (cell : PyVal) :
    Except PyErr (Option String) :=
  if pdIsna cell then Except.ok none
  else
    match dtP (pyStr cell) with
    | Except.error e => Except.error (PyErr.valueError (pyStr cell) e)
    | Except.ok _dt => Except.error (PyErr.valueError (pyStr cell) tzAttrErrMsg)

/-- Matcher for the regular expression backslash-s+ and backslash-s+ at the
head of a character list, as used case-sensitively by
Series.str.replace in collapse_owners (transform_excel.py line 102):
one or more whitespace characters, the lowercase letters a n d, one or
more whitespace characters.  Returns the remainder after the match. -/
def matchAndSep (l : List Char) : Option (List Char) :=
  if (l.takeWhile isPySpace).isEmpty then none
  else
    match l.dropWhile isPySpace with
    | 'a' :: 'n' :: 'd' :: r2 =>
      if (r2.takeWhile isPySpace).isEmpty then none
      else some (r2.dropWhile isPySpace)
    | _ => none

/-- Fuel-indexed single pass of re.sub replacing each leftmost match of
whitespace+and+whitespace by a comma, continuing after the replaced text.
The fuel is only a structural-recursion device; it is always called with
fuel at least the length of the list. -/
def replaceAndFuel : Nat → List Char → List Char
  | 0, l => l
  | _ + 1, [] => []
  | fuel + 1, c :: cs =>
    match matchAndSep (c :: cs) with
    | some r => ',' :: replaceAndFuel fuel r
    | none => c :: replaceAndFuel fuel cs

/-- Embeds Series.str.replace of whitespace+and+whitespace by a comma. -/
def replaceAnd (l : List Char) : List Char :=
  replaceAndFuel l.length l

/-- Embeds Series.str.replace of the character class semicolon-or-pipe by a
comma (transform_excel.py line 103). -/
def replaceSemiPipe (l : List Char) : List Char :=
  l.map (fun c => if c = ';' ∨ c = '|' then ',' else c)

/-- Embeds the Python str.split on a comma: returns the (possibly empty)
segments between commas; the split of an empty string is one empty part. -/
def splitOnComma : List Char → List (List Char)
  | [] => [[]]
  | c :: cs =>
    if c = ',' then [] :: splitOnComma cs
    else
      match splitOnComma cs with
      | [] => [[c]]
      | p :: ps => (c :: p) :: ps

/-- The dedup-preserving-order loop of collapse_owners
(transform_excel.py lines 105 to 110): keep a part if it is nonempty and
not yet seen. -/
def dedupAux (seen : List (List Char)) : List (List Char) → List (List Char)
  | [] => []
  | p :: ps =>
    if p = [] ∨ p ∈ seen then dedupAux seen ps
    else p :: dedupAux (p :: seen) ps

/-- Nonempty-first-seen filtering of the split parts. -/
def cleanedParts (parts : List (List Char)) : List (List Char) :=
  dedupAux [] parts

/-- Embeds str.join with a fixed separator over character lists. -/
def joinSep (sep : List Char) : List (List Char) → List Char
  | [] => []
  | [p] => p
  | p :: ps => p ++ sep ++ joinSep sep ps

/-- The core of collapse_owners on a character list: replace the and
delimiter, replace semicolons and pipes, split on commas, strip each part,
drop empties, dedup preserving first-seen order, join with comma-space. -/
def collapseCore (l : List Char) : List Char :=
  joinSep [',', ' ']
    (cleanedParts ((splitOnComma (replaceSemiPipe (replaceAnd l))).map pyStrip))

/-- Embeds collapse_owners (transform_excel.py lines 92 to 111): empty
string for an absent (None or NaN) cell, otherwise the core pipeline on
str(cell). -/
def collapse_owners (cell : PyVal) : String :=
  if pdIsna cell then ""
  else String.mk (collapseCore (pyStr cell).data)

/-- Case-insensitive variant of matchAndSep.  Modelled from the spec:
the claim of the specification says the literal word and is matched
case-insensitively when surrounded by whitespace; the source matches it
case-sensitively.  This definition follows the words of the spec and is
used only to compare the two behaviours. -/
def matchAndSepCI (l : List Char) : Option (List Char) :=
  if (l.takeWhile isPySpace).isEmpty then none
  else
    match l.dropWhile isPySpace with
    | c1 :: c2 :: c3 :: r2 =>
      if (c1 = 'a' ∨ c1 = 'A') ∧ (c2 = 'n' ∨ c2 = 'N') ∧ (c3 = 'd' ∨ c3 = 'D') then
        if (r2.takeWhile isPySpace).isEmpty then none
        else some (r2.dropWhile isPySpace)
      else none
    | _ => none

/-- Fuel-indexed case-insensitive replacement pass (spec variant). -/
def replaceAndCIFuel : Nat → List Char → List Char
  | 0, l => l
  | _ + 1, [] => []
  | fuel + 1, c :: cs =>
    match matchAndSepCI (c :: cs) with
    | some r => ',' :: replaceAndCIFuel fuel r
    | none => c :: replaceAndCIFuel fuel cs

/-- Case-insensitive replacement of the and delimiter (spec variant). -/
def replaceAndCI (l : List Char) : List Char :=
  replaceAndCIFuel l.length l

/-- Modelled from the spec: collapse_owners as the specification words it,
with the word and matched case-insensitively; identical to the source
embedding in every other respect.  Used only to exhibit where the source
departs from the spec. -/
def collapse_owners_spec (cell : PyVal) : String :=
  if pdIsna cell then ""
  else
    String.mk (joinSep [',', ' ']
      (cleanedParts
        ((splitOnComma (replaceSemiPipe (replaceAndCI (pyStr cell).data))).map
          pyStrip)))

/-- A raw row as produced by pd.read_excel with dtype=str: an association
of column names to cell values (strings or NaN). -/
def RawRow := List (String × PyVal)

/-- Embeds Series.get(key, default): the default is returned when the key
is not a string column name present in the row.  In the source the key may
itself be the Python None object (the Budget entry of the default map). -/
def rowGet (row : RawRow) (key : PyVal) (dflt : PyVal) : PyVal :=
  match key with
  | PyVal.str k =>
    match List.lookup k row with
    | some v => v
    | none => dflt
  | _ => dflt

/-- The mapping configuration: the scalar field sources (a dict from
canonical field name to a raw column name or None) and the list of
passthrough columns stored under the extra key. -/
structure Cfg where
  fields : List (String × PyVal)
  extra : List String

/-- Embeds the dict item access cfg[k]: KeyError when the key is absent. -/
def cfgItem (cfg : Cfg) (k : String) : Except PyErr PyVal :=
  match List.lookup k cfg.fields with
  | some v => Except.ok v
  | none => Except.error (PyErr.keyError k)

/-- Embeds DEFAULT_MAP (transform_excel.py lines 30 to 45). -/
def DEFAULT_MAP : Cfg :=
  { fields :=
      [("ProjectID", PyVal.str "No."),
       ("Name", PyVal.str "Title"),
       ("Status", PyVal.str "Status"),
       ("Owner", PyVal.str "Project Manager"),
       ("Budget", PyVal.pyNone),
       ("LastUpdated", PyVal.str "Latest Check-in When")],
    extra :=
      ["Progress",
       "Is external project?",
       "Has implementation plan?",
       "Latest Check-in By",
       "Latest Check-in 145"] }

/-- One escaped character of json.dumps with ensure_ascii=False, as used
for the extra bag (transform_excel.py line 166): only the quote, the
backslash and control characters are escaped; everything else is kept. -/
def jsonEscNA (c : Char) : List Char :=
  if c = '"' then ['\\', '"']
  else if c = '\\' then ['\\', '\\']
  else if c = '\n' then ['\\', 'n']
  else if c = '\r' then ['\\', 'r']
  else if c = '\t' then ['\\', 't']
  else if c.toNat = 8 then ['\\', 'b']
  else if c.toNat = 12 then ['\\', 'f']
  else if c.toNat < 32 then
    ['\\', 'u', '0', '0',
     (if c.toNat / 16 < 10 then Char.ofNat (48 + c.toNat / 16)
      else Char.ofNat (87 + c.toNat / 16)),
     (if c.toNat % 16 < 10 then Char.ofNat (48 + c.toNat % 16)
      else Char.ofNat (87 + c.toNat % 16))]
  else [c]

/-- A JSON value for one extra cell: Python None serializes as null,
the float NaN as the literal NaN, a string as a quoted escaped string. -/
def jsonValNA : PyVal → List Char
  | PyVal.pyNone => ['n', 'u', 'l', 'l']
  | PyVal.nan => ['N', 'a', 'N']
  | PyVal.str s => '"' :: ((s.data.map jsonEscNA).flatten ++ ['"'])

/-- Embeds json.dumps of the extra dict with ensure_ascii=False and the
default separators: insertion order of keys, comma-space between items,
colon-space after each key. -/
def jsonDumpsPairs (pairs : List (String × PyVal)) : String :=
  String.mk
    ("\x7b".data ++
     joinSep ", ".data
       (pairs.map (fun p =>
         '"' :: ((p.1.data.map jsonEscNA).flatten ++ (['"', ':', ' '] ++ jsonValNA p.2)))) ++
     "\x7d".data)

/-- A canonical record as assembled by the transform loop
(transform_excel.py lines 169 to 177).  budget is always the Python None
(line 156 assigns the literal None without consulting the configuration). -/
structure CanonRow where
  projectID : String
  name : String
  status : String
  owner : String
  budget : Option String
  lastUpdated : Option String
  extraJson : String
deriving DecidableEq, Repr

/-- Embeds one iteration of the transform loop
(transform_excel.py lines 132 to 177) on a single raw row:
ok none models the continue that skips a row whose ProjectID cell is NaN
or absent; ok (some record) models appending a canonical row; error models
an uncaught Python exception (KeyError from a missing configuration key,
AttributeError from calling strip on a non-string status cell, ValueError
from parse_datetime).  Lookups happen in source order: ProjectID, Name,
Status, Owner, LastUpdated. -/
def rowStep (dtP : String → Except String PyDatetime) (cfg : Cfg)
    (row : RawRow) : Except PyErr (Option CanonRow) :=
  match cfgItem cfg "ProjectID" with
  | Except.error e => Except.error e
  | Except.ok pidKey =>
    let pidRaw := rowGet row pidKey PyVal.pyNone
    if pdIsna pidRaw then Except.ok none
    else
      match cfgItem cfg "Name" with
      | Except.error e => Except.error e
      | Except.ok nameKey =>
        let name := pyStripStr (pyStr (rowGet row nameKey (PyVal.str "")))
        match cfgItem cfg "Status" with
        | Except.error e => Except.error e
        | Except.ok statusKey =>
          match rowGet row statusKey (PyVal.str "") with
          | PyVal.pyNone => Except.error (PyErr.attributeError "strip")
          | PyVal.nan => Except.error (PyErr.attributeError "strip")
          | PyVal.str statusRaw =>
            let status := normalize_status statusRaw
            match cfgItem cfg "Owner" with
            | Except.error e => Except.error e
            | Except.ok ownerKey =>
              let ownerRaw := rowGet row ownerKey PyVal.pyNone
              let ownerUse :=
                match ownerRaw with
                | PyVal.str s =>
                  if pyStripStr s = "" then
                    rowGet row (PyVal.str "Project Proponent") PyVal.pyNone
                  else PyVal.str s
                | _ => rowGet row (PyVal.str "Project Proponent") PyVal.pyNone
              let owner := collapse_owners ownerUse
              match cfgItem cfg "LastUpdated" with
              | Except.error e => Except.error e
              | Except.ok luKey =>
                match parse_datetime dtP (rowGet row luKey PyVal.pyNone) with
                | Except.error e => Except.error e
                | Except.ok lastUpdated =>
                  Except.ok (some
                    { projectID := pyStripStr (pyStr pidRaw),
                      name := name,
                      status := status,
                      owner := owner,
                      budget := none,
                      lastUpdated := lastUpdated,
                      extraJson := jsonDumpsPairs
                        (cfg.extra.map (fun c =>
                          (c, rowGet row (PyVal.str c) PyVal.pyNone))) })

/-- Embeds the transform loop over all raw rows
(transform_excel.py lines 130 to 179): rows are processed in order, a
skipped row contributes nothing, and the first uncaught exception aborts
the whole run.  The canonical CSV is written only after the loop
(line 185), and main catches any exception and exits nonzero (lines 225
to 229), so an error means no partial canonical dataset is produced. -/
def transform (dtP : String → Except String PyDatetime) (cfg : Cfg) :
    List RawRow → Except PyErr (List CanonRow)
  | [] => Except.ok []
  | r :: rs =>
    match rowStep dtP cfg r with
    | Except.error e => Except.error e
    | Except.ok o =>
      match transform dtP cfg rs with
      | Except.error e => Except.error e
      | Except.ok rest =>
        match o with
        | none => Except.ok rest
        | some c => Except.ok (c :: rest)

/-- A row of the master sheet served by the mock GAITS service, with the
canonical column set; each cell is a string or (for an empty cell read with
dtype=str) NaN, modelled as none. -/
structure MasterRow where
  projectID : Option String
  name : Option String
  status : Option String
  owner : Option String
  budget : Option String
  lastUpdated : Option String
  extraJson : Option String
deriving DecidableEq, Repr

/-- Lowercase hexadecimal digit character for a value below 16. -/
def hexDig (n : Nat) : Char :=
  if n < 10 then Char.ofNat (48 + n) else Char.ofNat (87 + n)

/-- Numeric value of a lowercase hexadecimal digit character. -/
def hexVal (c : Char) : Option Nat :=
  if 48 ≤ c.toNat ∧ c.toNat ≤ 57 then some (c.toNat - 48)
  else if 97 ≤ c.toNat ∧ c.toNat ≤ 102 then some (c.toNat - 87)
  else none

/-- Four lowercase hexadecimal digits of a value below 65536. -/
def toHex4 (n : Nat) : List Char :=
  [hexDig (n / 4096 % 16), hexDig (n / 256 % 16), hexDig (n / 16 % 16),
   hexDig (n % 16)]

/-- One escaped character of json.dumps with the default ensure_ascii=True,
as used by the row hash of the mock service (mock_gaits/app.py line 44):
short escapes for the quote, backslash and common control characters,
backslash-u escapes for other control characters and all non-ASCII
characters, with a surrogate pair for code points above 65535. -/
def jsonEsc (c : Char) : List Char :=
  if c = '"' then ['\\', '"']
  else if c = '\\' then ['\\', '\\']
  else if c = '\n' then ['\\', 'n']
  else if c = '\r' then ['\\', 'r']
  else if c = '\t' then ['\\', 't']
  else if c.toNat = 8 then ['\\', 'b']
  else if c.toNat = 12 then ['\\', 'f']
  else if c.toNat < 32 ∨ 126 < c.toNat then
    if c.toNat < 65536 then '\\' :: 'u' :: toHex4 c.toNat
    else
      ('\\' :: 'u' :: toHex4 (55296 + (c.toNat - 65536) / 1024)) ++
      ('\\' :: 'u' :: toHex4 (56320 + (c.toNat - 65536) % 1024))
  else [c]

/-- Escape every character of a string body. -/
def escL (s : List Char) : List Char :=
  (s.map jsonEsc).flatten

/-- JSON text of one cell under json.dumps: a NaN cell prints as the
bare literal NaN (allow_nan is left at its default), a string cell as a
quoted escaped string. -/
def encCellChars : Option String → List Char
  | none => ['N', 'a', 'N']
  | some s => '"' :: (escL s.data ++ ['"'])

/-- The non-volatile content of a MasterRow: every column except
LastUpdated, ordered by sorted key name as json.dumps with sort_keys=True
orders them (Budget, Name, Owner, ProjectID, Status, extra_json). -/
def businessFields (r : MasterRow) :
    Option String × Option String × Option String × Option String ×
    Option String × Option String :=
  (r.budget, r.name, r.owner, r.projectID, r.status, r.extraJson)

/-- json.dumps(payload, sort_keys=True) of the dict that remains after
dropping the LastUpdated column: a fixed template with the six remaining
keys in sorted order and the default item and key separators. -/
def serializeTuple
    (t : Option String × Option String × Option String × Option String ×
      Option String × Option String) : List Char :=
  match t with
  | (b, n, o, p, s, e) =>
    "\x7b\"Budget\": ".data ++
    (encCellChars b ++
    (", \"Name\": ".data ++
    (encCellChars n ++
    (", \"Owner\": ".data ++
    (encCellChars o ++
    (", \"ProjectID\": ".data ++
    (encCellChars p ++
    (", \"Status\": ".data ++
    (encCellChars s ++
    (", \"extra_json\": ".data ++
    (encCellChars e ++
    "\x7d".data)))))))))))

/-- The serialized row content hashed by the mock service. -/
def serializeRow (r : MasterRow) : String :=
  String.mk (serializeTuple (businessFields r))

/-- Embeds the row hash of the mock service (mock_gaits/app.py lines 37
to 44): drop the LastUpdated column, dump the remaining dict as key-sorted
JSON, and digest it.  The SHA-256 digest itself is injected as the
function sha; the specification requires it to be collision-resistant, so
theorems about distinct digests take its injectivity on the relevant
payloads as a hypothesis. -/
def hash_row (sha : String → String) (r : MasterRow) : String :=
  sha (serializeRow r)

/-- Reads four lowercase hexadecimal digits from the front of a list. -/
def readHex4 : List Char → Option (Nat × List Char)
  | a :: b :: c :: d :: r =>
    match hexVal a, hexVal b, hexVal c, hexVal d with
    | some x, some y, some z, some w => some (4096 * x + 256 * y + 16 * z + w, r)
    | _, _, _, _ => none
  | _ => none

/-- Continuation after reading one backslash-u escape value n: a plain
code point stands alone; a high surrogate must be followed by a second
backslash-u escape holding the low surrogate. -/
def decodeUCont (n : Nat) (r : List Char) : Option (Char × List Char) :=
  if n < 55296 ∨ 57343 < n then some (Char.ofNat n, r)
  else if n ≤ 56319 then
    match r with
    | '\\' :: 'u' :: r2 =>
      match readHex4 r2 with
      | some (m, r3) =>
        if 56320 ≤ m ∧ m ≤ 57343 then
          some (Char.ofNat (65536 + ((n - 55296) * 1024 + (m - 56320))), r3)
        else none
      | none => none
    | _ => none
  else none

/-- Decodes one character of a JSON string body from the front of a list:
either an escape sequence or a plain character. -/
def decodeOne : List Char → Option (Char × List Char)
  | [] => none
  | c :: r =>
    if c = '\\' then
      match r with
      | '"' :: r2 => some ('"', r2)
      | '\\' :: r2 => some ('\\', r2)
      | 'n' :: r2 => some ('\n', r2)
      | 'r' :: r2 => some ('\r', r2)
      | 't' :: r2 => some ('\t', r2)
      | 'b' :: r2 => some (Char.ofNat 8, r2)
      | 'f' :: r2 => some (Char.ofNat 12, r2)
      | 'u' :: r2 =>
        match readHex4 r2 with
        | some (n, r3) => decodeUCont n r3
        | none => none
      | _ => none
    else some (c, r)

/-- Decodes a JSON string body up to its closing quote.  The fuel bounds
the recursion; any fuel of at least the length of the list suffices. -/
def decodeString : Nat → List Char → Option (List Char × List Char)
  | 0, _ => none
  | _ + 1, [] => none
  | fuel + 1, c :: r =>
    if c = '"' then some ([], r)
    else
      match decodeOne (c :: r) with
      | some (x, r2) =>
        match decodeString fuel r2 with
        | some (s, r3) => some (x :: s, r3)
        | none => none
      | none => none

/-- Decodes one serialized cell: the literal NaN or a quoted string. -/
def decodeCell : List Char → Option (Option String × List Char)
  | 'N' :: 'a' :: 'N' :: r => some (none, r)
  | '"' :: r =>
    match decodeString (r.length + 1) r with
    | some (s, r2) => some (some (String.mk s), r2)
    | none => none
  | _ => none

/-- Strips an expected literal from the front of a list. -/
def stripLit : List Char → List Char → Option (List Char)
  | [], l => some l
  | _ :: _, [] => none
  | p :: ps, c :: cs => if c = p then stripLit ps cs else none

/-- Left inverse of serializeTuple: recovers the six cell values from the
serialized row content.  Its existence makes the serialization injective,
which carries collision resistance of the digest down to the row fields. -/
def decodeRow (l : List Char) :
    Option (Option String × Option String × Option String × Option String ×
      Option String × Option String) :=
  match stripLit "\x7b\"Budget\": ".data l with
  | none => none
  | some l1 =>
    match decodeCell l1 with
    | none => none
    | some (b, l2) =>
      match stripLit ", \"Name\": ".data l2 with
      | none => none
      | some l3 =>
        match decodeCell l3 with
        | none => none
        | some (n, l4) =>
          match stripLit ", \"Owner\": ".data l4 with
          | none => none
          | some l5 =>
            match decodeCell l5 with
            | none => none
            | some (o, l6) =>
              match stripLit ", \"ProjectID\": ".data l6 with
              | none => none
              | some l7 =>
                match decodeCell l7 with
                | none => none
                | some (p, l8) =>
                  match stripLit ", \"Status\": ".data l8 with
                  | none => none
                  | some l9 =>
                    match decodeCell l9 with
                    | none => none
                    | some (s, l10) =>
                      match stripLit ", \"extra_json\": ".data l10 with
                      | none => none
                      | some l11 =>
                        match decodeCell l11 with
                        | none => none
                        | some (e, l12) =>
                          match stripLit "\x7d".data l12 with
                          | some [] => some (b, n, o, p, s, e)
                          | _ => none

/-- The constant credential of the mock service (mock_gaits/app.py line 23). -/
def MOCK_KEY : String := "MOCK_KEY"

/-- An HTTP error response of the mock service: status code and detail. -/
structure HTTPErr where
  status : Nat
  detail : String
deriving DecidableEq, Repr

/-- Embeds pd.to_datetime applied to the LastUpdated column: NaN cells
become NaT (none); the first unparsable string raises.  pdP injects the
pandas timestamp parser, producing a totally ordered instant. -/
def seriesToDatetime (pdP : String → Except String Int) :
    List (Option String) → Except String (List (Option Int))
  | [] => Except.ok []
  | none :: rest =>
    match seriesToDatetime pdP rest with
    | Except.ok ts => Except.ok (none :: ts)
    | Except.error e => Except.error e
  | some s :: rest =>
    match pdP s with
    | Except.error e => Except.error e
    | Except.ok v =>
      match seriesToDatetime pdP rest with
      | Except.ok ts => Except.ok (some v :: ts)
      | Except.error e => Except.error e

/-- Embeds the boolean mask filter df[mask] for the comparison
column > since: a NaT entry compares false against every timestamp, so
such rows are never kept. -/
def maskFilter : List MasterRow → List (Option Int) → Int → List MasterRow
  | [], _, _ => []
  | _ :: _, [], _ => []
  | r :: rs, m :: ms, t =>
    if (match m with | some v => decide (t < v) | none => false) then
      r :: maskFilter rs ms t
    else maskFilter rs ms t

/-- The record-level delta predicate: the row has a present LastUpdated
whose parsed instant is strictly greater than the given threshold. -/
def newerThan (pdP : String → Except String Int) (t : Int) (r : MasterRow) :
    Bool :=
  match r.lastUpdated with
  | none => false
  | some s =>
    match pdP s with
    | Except.ok v => decide (t < v)
    | Except.error _ => false

/-- Embeds the delta endpoint (mock_gaits/app.py lines 59 to 75): reject a
wrong api_key with status 401; inside the try block first convert the
LastUpdated column, then the since argument, any conversion failure
becoming a status 400 client error whose detail reports an unparsable
since value; finally keep exactly the rows whose column timestamp is
strictly greater than the since timestamp. -/
def delta_projects (pdP : String → Except String Int) (rows : List MasterRow)
    (since : String) (api_key : String) : Except HTTPErr (List MasterRow) :=
  if api_key ≠ MOCK_KEY then Except.error { status := 401, detail := "Invalid API key" }
  else
    match seriesToDatetime pdP (rows.map (fun r => r.lastUpdated)) with
    | Except.error e =>
      Except.error { status := 400, detail := "Unable to parse since timestamp: " ++ e }
    | Except.ok ts =>
      match pdP since with
      | Except.error e =>
        Except.error { status := 400, detail := "Unable to parse since timestamp: " ++ e }
      | Except.ok t => Except.ok (maskFilter rows ts t)

/-- A stub datetime parser that fails on every input, standing in for
dateutil on thoroughly unparsable text. -/
def dtStubFail : String → Except String PyDatetime :=
  fun _ => Except.error "Unknown string format"

/-- A stub datetime parser that succeeds on every input, standing in for
dateutil on well-formed text. -/
def dtStubOk : String → Except String PyDatetime :=
  fun _ => Except.ok { year := 2025, month := 10, day := 14, hour := 10,
                       minute := 4, second := 0 }

/-- A raw row whose ProjectID cell consists of whitespace only: present
(not NaN) but blank after trimming. -/
def blankIdRow : RawRow :=
  [("No.", PyVal.str "  ")]

/-- A raw row with a present identifier and a present LastUpdated value
that the stub parser rejects. -/
def badDateRow : RawRow :=
  [("No.", PyVal.str "7"),
   ("Title", PyVal.str "Bridge"),
   ("Status", PyVal.str "Completed"),
   ("Latest Check-in When", PyVal.str "not a date")]

/-- A raw row that canonicalizes successfully: present identifier and an
absent LastUpdated cell. -/
def okRow : RawRow :=
  [("No.", PyVal.str "1"),
   ("Title", PyVal.str "Road"),
   ("Status", PyVal.str "Planning")]

/-- The default mapping with the ProjectID entry removed. -/
def cfgNoPid : Cfg :=
  { fields :=
      [("Name", PyVal.str "Title"),
       ("Status", PyVal.str "Status"),
       ("Owner", PyVal.str "Project Manager"),
       ("Budget", PyVal.pyNone),
       ("LastUpdated", PyVal.str "Latest Check-in When")],
    extra := DEFAULT_MAP.extra }

/-- A stub pandas timestamp parser for the delta examples of the spec. -/
def pdStub : String → Except String Int := fun s =>
  if s = "2024-12-31T23:59:59Z" then Except.ok 100
  else if s = "2025-01-01T00:00:00Z" then Except.ok 200
  else if s = "2025-01-02T00:00:00Z" then Except.ok 300
  else Except.error "parse error"

/-- Delta example row with the older timestamp. -/
def deltaRowOld : MasterRow :=
  { projectID := some "1", name := some "Road", status := some "Planning",
    owner := some "Alice", budget := none,
    lastUpdated := some "2024-12-31T23:59:59Z", extraJson := some "\x7b\x7d" }

/-- Delta example row with the newer timestamp. -/
def deltaRowNew : MasterRow :=
  { projectID := some "2", name := some "Bridge", status := some "Completed",
    owner := some "Bob", budget := none,
    lastUpdated := some "2025-01-02T00:00:00Z", extraJson := some "\x7b\x7d" }

/-- Delta example row with a null LastUpdated. -/
def deltaRowNull : MasterRow :=
  { projectID := some "3", name := some "Tunnel", status := some "OnHold",
    owner := some "Carol", budget := none,
    lastUpdated := none, extraJson := some "\x7b\x7d" }

/-! Helper lemmas about whitespace stripping. -/

theorem dropWhile_idem (p : Char → Bool) (l : List Char) :
    List.dropWhile p (List.dropWhile p l) = List.dropWhile p l := by
  induction l with
  | nil => simp
  | cons c cs ih =>
    by_cases h : p c
    · simp [List.dropWhile_cons, h, ih]
    · simp [List.dropWhile_cons, h]

theorem dropWhile_eq_cons_head_false (p : Char → Bool) (l : List Char)
    (c : Char) (t : List Char) (h : List.dropWhile p l = c :: t) :
    p c = false := by
  induction l with
  | nil => simp at h
  | cons a as ih =>
    by_cases ha : p a
    · rw [List.dropWhile_cons_of_pos ha] at h
      exact ih h
    · rw [List.dropWhile_cons_of_neg ha] at h
      cases h
      exact Bool.not_eq_true _ ▸ eq_false_of_ne_true (fun hh => ha hh)

theorem pyStrip_front (l : List Char) :
    List.dropWhile isPySpace (pyStrip l) = pyStrip l := by
  unfold pyStrip
  set A := List.dropWhile isPySpace l with hA
  obtain ⟨u, hu⟩ := List.dropWhile_suffix (l := A.reverse) isPySpace
  cases hm : (List.dropWhile isPySpace A.reverse).reverse with
  | nil => simp
  | cons c t =>
    have hrev : List.dropWhile isPySpace A.reverse = t.reverse ++ [c] := by
      have := congrArg List.reverse hm
      simpa using this
    have hAeq : A = c :: (t ++ u.reverse) := by
      have := congrArg List.reverse hu
      simp [hrev] at this
      simpa using this.symm
    have hc : isPySpace c = false := by
      have : List.dropWhile isPySpace A = A := by
        rw [hA]; exact dropWhile_idem _ _
      rw [hAeq] at this
      exact dropWhile_eq_cons_head_false _ _ _ _ this
    rw [List.dropWhile_cons_of_neg (by simp [hc])]

theorem pyStrip_back (l : List Char) :
    List.dropWhile isPySpace (pyStrip l).reverse = (pyStrip l).reverse := by
  unfold pyStrip
  simp [dropWhile_idem]

theorem pyStrip_of_stripped (l : List Char)
    (h1 : List.dropWhile isPySpace l = l)
    (h2 : List.dropWhile isPySpace l.reverse = l.reverse) :
    pyStrip l = l := by
  unfold pyStrip
  rw [h1, h2, List.reverse_reverse]

theorem pyStrip_idem (l : List Char) : pyStrip (pyStrip l) = pyStrip l := by
  apply pyStrip_of_stripped
  · exact pyStrip_front l
  · exact pyStrip_back l

theorem pyStripStr_idem (s : String) :
    pyStripStr (pyStripStr s) = pyStripStr s := by
  unfold pyStripStr
  rw [show (String.mk (pyStrip s.data)).data = pyStrip s.data from rfl,
    pyStrip_idem]

theorem lookup_statusTable_mem (k v : String)
    (h : statusTable.lookup k = some v) :
    v ∈ ["Planning", "Construction", "InDesign", "Completed", "OnHold"] := by
  simp only [statusTable, List.lookup] at h
  repeat' split at h
  all_goals simp_all

/-- C8: for every input string, normalize_status trims whitespace, looks
the trimmed text up in the fixed case-sensitive table, and returns
Planning on any miss; it never fails (it is a total function), and its
result is always a member of the closed enumeration Planning,
Construction, InDesign, Completed, OnHold. -/
theorem C8_normalize_status_total (raw : String) :
    normalize_status raw = normalize_status (pyStripStr raw) ∧
    normalize_status raw ∈
      ["Planning", "Construction", "InDesign", "Completed", "OnHold"] ∧
    (statusTable.lookup (pyStripStr raw) = none →
      normalize_status raw = "Planning") := by
  refine ⟨?_, ?_, ?_⟩
  · unfold normalize_status
    rw [pyStripStr_idem]
  · unfold normalize_status
    cases h : statusTable.lookup (pyStripStr raw) with
    | none => simp
    | some v => simpa using lookup_statusTable_mem _ _ h
  · intro h
    unfold normalize_status
    rw [h]
    rfl

/-- Witness for C8 at a concrete table miss. -/
theorem C8_witness :
    statusTable.lookup (pyStripStr " mystery state ") = none ∧
    normalize_status " mystery state " = "Planning" ∧
    normalize_status " mystery state " =
      normalize_status (pyStripStr " mystery state ") :=
  ⟨by decide, (C8_normalize_status_total " mystery state ").2.2 (by decide),
   (C8_normalize_status_total " mystery state ").1⟩

/-- C1: the spec says parse_datetime returns an ISO-8601 string with a
trailing Z for any parsable present value, and in particular on the
example input.  The code cannot: its own docstring promises the ISO
result, but line 86 evaluates datetime.timezone on the datetime class
brought in on line 19, raising AttributeError inside the try block, so for
every behaviour of the injected parser the function raises ValueError on
the example (and on every present value) instead of returning a string. -/
theorem C1_parse_datetime_example_raises
    (dtP : String → Except String PyDatetime) :
    ∃ m, parse_datetime dtP (PyVal.str "Oct 14, 2025 10:04 AM") =
      Except.error (PyErr.valueError "Oct 14, 2025 10:04 AM" m) := by
  cases h : dtP "Oct 14, 2025 10:04 AM" with
  | error e => exact ⟨e, by simp [parse_datetime, pdIsna, pyStr, h]⟩
  | ok d => exact ⟨tzAttrErrMsg, by simp [parse_datetime, pdIsna, pyStr, h]⟩

/-- C7 counterexample: the claim says parse_datetime returns null when the
raw value is absent or empty, but the empty string is not NaN under
pd.isna, so it is handed to the parser and the function raises instead of
returning null. -/
theorem C7_empty_string_raises :
    pdIsna (PyVal.str "") = false ∧
    parse_datetime dtStubFail (PyVal.str "") =
      Except.error (PyErr.valueError "" "Unknown string format") :=
  ⟨rfl, rfl⟩

/-- Unfolding of one transform-loop iteration under the default mapping:
all configuration lookups resolve, leaving the row-dependent branches. -/
theorem rowStep_default (dtP : String → Except String PyDatetime)
    (row : RawRow) :
    rowStep dtP DEFAULT_MAP row =
      (if pdIsna (rowGet row (PyVal.str "No.") PyVal.pyNone) then Except.ok none
       else
         match rowGet row (PyVal.str "Status") (PyVal.str "") with
         | PyVal.pyNone => Except.error (PyErr.attributeError "strip")
         | PyVal.nan => Except.error (PyErr.attributeError "strip")
         | PyVal.str statusRaw =>
           match parse_datetime dtP
               (rowGet row (PyVal.str "Latest Check-in When") PyVal.pyNone) with
           | Except.error e => Except.error e
           | Except.ok lu =>
             Except.ok (some
               { projectID :=
                   pyStripStr (pyStr (rowGet row (PyVal.str "No.") PyVal.pyNone)),
                 name :=
                   pyStripStr (pyStr (rowGet row (PyVal.str "Title") (PyVal.str ""))),
                 status := normalize_status statusRaw,
                 owner := collapse_owners
                   (match rowGet row (PyVal.str "Project Manager") PyVal.pyNone with
                    | PyVal.str s =>
                      if pyStripStr s = "" then
                        rowGet row (PyVal.str "Project Proponent") PyVal.pyNone
                      else PyVal.str s
                    | _ => rowGet row (PyVal.str "Project Proponent") PyVal.pyNone),
                 budget := none,
                 lastUpdated := lu,
                 extraJson := jsonDumpsPairs
                   (DEFAULT_MAP.extra.map (fun c =>
                     (c, rowGet row (PyVal.str c) PyVal.pyNone))) })) := rfl

/-- Under the default mapping, a row whose identifier cell is present and
whose status cell is a string propagates any parse_datetime error of its
LastUpdated cell unchanged out of the loop iteration. -/
theorem rowStep_default_lu_error (dtP : String → Except String PyDatetime)
    (row : RawRow) (e : PyErr)
    (hpid : pdIsna (rowGet row (PyVal.str "No.") PyVal.pyNone) = false)
    (st : String)
    (hst : rowGet row (PyVal.str "Status") (PyVal.str "") = PyVal.str st)
    (hlu : parse_datetime dtP
      (rowGet row (PyVal.str "Latest Check-in When") PyVal.pyNone) =
      Except.error e) :
    rowStep dtP DEFAULT_MAP row = Except.error e := by
  rw [rowStep_default, hpid, hst, hlu]
  simp

/-- C7 amended: parse_datetime returns null exactly when the raw cell is
absent (the Python None or the float NaN); the empty string is a present
value and is handed to the parser rather than yielding null.  For a
present value the parser cannot interpret, the function raises a
ValueError carrying the offending raw value, and that error is not
swallowed: under the default mapping it aborts the row, propagating out of
the loop iteration. -/
theorem C7_parse_datetime_error_policy
    (dtP : String → Except String PyDatetime) (cell : PyVal) :
    (pdIsna cell = true → parse_datetime dtP cell = Except.ok none) ∧
    (∀ s e, cell = PyVal.str s → dtP s = Except.error e →
      parse_datetime dtP cell = Except.error (PyErr.valueError s e)) ∧
    (∀ (row : RawRow) (s : String) (e : String) (st : String),
      pdIsna (rowGet row (PyVal.str "No.") PyVal.pyNone) = false →
      rowGet row (PyVal.str "Status") (PyVal.str "") = PyVal.str st →
      rowGet row (PyVal.str "Latest Check-in When") PyVal.pyNone = PyVal.str s →
      dtP s = Except.error e →
      rowStep dtP DEFAULT_MAP row =
        Except.error (PyErr.valueError s e)) := by
  refine ⟨?_, ?_, ?_⟩
  · intro h
    simp [parse_datetime, h]
  · intro s e hc hp
    subst hc
    simp [parse_datetime, pdIsna, pyStr, hp]
  · intro row s e st hpid hst hlu hp
    apply rowStep_default_lu_error dtP row _ hpid st hst
    rw [hlu]
    simp [parse_datetime, pdIsna, pyStr, hp]

/-- Witness for C7 at concrete inputs: an absent cell yields null, and the
bad date row aborts with the ValueError carrying its raw cell text. -/
theorem C7_witness :
    parse_datetime dtStubFail PyVal.nan = Except.ok none ∧
    parse_datetime dtStubFail (PyVal.str "not a date") =
      Except.error (PyErr.valueError "not a date" "Unknown string format") ∧
    rowStep dtStubFail DEFAULT_MAP badDateRow =
      Except.error (PyErr.valueError "not a date" "Unknown string format") :=
  ⟨(C7_parse_datetime_error_policy dtStubFail PyVal.nan).1 rfl,
   (C7_parse_datetime_error_policy dtStubFail
     (PyVal.str "not a date")).2.1 "not a date" "Unknown string format" rfl rfl,
   (C7_parse_datetime_error_policy dtStubFail
     (PyVal.str "not a date")).2.2 badDateRow "not a date"
     "Unknown string format" "Completed" rfl rfl rfl rfl⟩

/-- Under the default mapping, a row with a present identifier, a string
status cell and a present LastUpdated cell always aborts its loop
iteration with a ValueError carrying that raw cell text (whatever the
injected parser does with it). -/
theorem rowStep_default_lu_present_error
    (dtP : String → Except String PyDatetime) (row : RawRow) (s st : String)
    (hpid : pdIsna (rowGet row (PyVal.str "No.") PyVal.pyNone) = false)
    (hst : rowGet row (PyVal.str "Status") (PyVal.str "") = PyVal.str st)
    (hlu : rowGet row (PyVal.str "Latest Check-in When") PyVal.pyNone =
      PyVal.str s) :
    ∃ m, rowStep dtP DEFAULT_MAP row =
      Except.error (PyErr.valueError s m) := by
  cases hp : dtP s with
  | error e =>
    refine ⟨e, rowStep_default_lu_error dtP row _ hpid st hst ?_⟩
    rw [hlu]
    simp [parse_datetime, pdIsna, pyStr, hp]
  | ok d =>
    refine ⟨tzAttrErrMsg, rowStep_default_lu_error dtP row _ hpid st hst ?_⟩
    rw [hlu]
    simp [parse_datetime, pdIsna, pyStr, hp]

/-- C2 counterexample: the claim says the failure reports the offending
row ordinal, but the runs in which the bad row sits at ordinal 0 and at
ordinal 1 fail with the identical error value, so the error cannot report
the ordinal position. -/
theorem C2_error_lacks_ordinal :
    transform dtStubFail DEFAULT_MAP [badDateRow] =
      Except.error (PyErr.valueError "not a date" "Unknown string format") ∧
    transform dtStubFail DEFAULT_MAP [okRow, badDateRow] =
      Except.error (PyErr.valueError "not a date" "Unknown string format") :=
  ⟨rfl, rfl⟩

/-- C2 amended: on the first row whose LastUpdated source cell holds a
present value that fails date parsing, the entire transform run fails with
an error that reports the raw offending value (but not the row ordinal),
and no partial canonical dataset is produced, even if every other row is
valid. -/
theorem C2_first_parse_error_aborts
    (dtP : String → Except String PyDatetime)
    (pre rest : List RawRow) (row : RawRow) (s st : String)
    (hpre : ∀ r ∈ pre, ∃ v, rowStep dtP DEFAULT_MAP r = Except.ok v)
    (hpid : pdIsna (rowGet row (PyVal.str "No.") PyVal.pyNone) = false)
    (hst : rowGet row (PyVal.str "Status") (PyVal.str "") = PyVal.str st)
    (hlu : rowGet row (PyVal.str "Latest Check-in When") PyVal.pyNone =
      PyVal.str s) :
    ∃ m, transform dtP DEFAULT_MAP (pre ++ row :: rest) =
      Except.error (PyErr.valueError s m) := by
  induction pre with
  | nil =>
    obtain ⟨m, hm⟩ := rowStep_default_lu_present_error dtP row s st hpid hst hlu
    exact ⟨m, by simp [transform, hm]⟩
  | cons r pre ih =>
    obtain ⟨v, hv⟩ := hpre r (by simp)
    obtain ⟨m, hm⟩ := ih (fun q hq => hpre q (by simp [hq]))
    refine ⟨m, ?_⟩
    simp only [List.cons_append, transform, hv]
    rw [show pre.append (row :: rest) = pre ++ row :: rest from rfl, hm]

/-- Witness for C2: a concrete run with one valid row preceding the bad
row aborts with the error carrying the raw value. -/
theorem C2_witness :
    ∃ m, transform dtStubFail DEFAULT_MAP ([okRow] ++ badDateRow :: []) =
      Except.error (PyErr.valueError "not a date" m) :=
  C2_first_parse_error_aborts dtStubFail [okRow] [] badDateRow
    "not a date" "Completed"
    (by
      intro r hr
      simp only [List.mem_singleton] at hr
      subst hr
      exact ⟨_, rfl⟩)
    rfl rfl rfl

/-- C3 counterexample: a ProjectID cell that is blank after trimming is
not skipped; the transform produces a canonical record with an empty
project identifier for it. -/
theorem C3_blank_id_produces_record :
    pyStripStr "  " = "" ∧
    transform dtStubFail DEFAULT_MAP [blankIdRow] =
      Except.ok [{ projectID := "", name := "", status := "Planning",
                   owner := "", budget := none, lastUpdated := none,
                   extraJson := "\x7b\"Progress\": null, \"Is external project?\": null, \"Has implementation plan?\": null, \"Latest Check-in By\": null, \"Latest Check-in 145\": null\x7d" }] :=
  ⟨rfl, rfl⟩

/-- C3 amended: a row is skipped exactly when its configured ProjectID
cell is absent or NaN; such a row contributes no record and no error, and
is invisible in the output of the run (in particular no skipped-row
counter exists: the output determines only the produced records).  A
present-but-blank identifier is not skipped (see the counterexample). -/
theorem C3_missing_id_skipped_invisibly
    (dtP : String → Except String PyDatetime) (row : RawRow)
    (rows : List RawRow)
    (h : pdIsna (rowGet row (PyVal.str "No.") PyVal.pyNone) = true) :
    transform dtP DEFAULT_MAP (row :: rows) = transform dtP DEFAULT_MAP rows := by
  have h1 : rowStep dtP DEFAULT_MAP row = Except.ok none := by
    rw [rowStep_default, h]
    simp
  simp only [transform, h1]
  cases htr : transform dtP DEFAULT_MAP rows <;> simp

/-- Witness for C3: a concrete row with a NaN identifier cell is skipped
without an error and leaves the run output unchanged. -/
theorem C3_witness :
    transform dtStubFail DEFAULT_MAP [[("No.", PyVal.nan)]] =
      transform dtStubFail DEFAULT_MAP [] :=
  C3_missing_id_skipped_invisibly dtStubFail [("No.", PyVal.nan)] [] rfl

/-- C9 counterexample: the claim says a mapping omitting a source for
ProjectID surfaces a ConfigurationError before any row processing begins;
but the code performs no configuration validation at all: a run over zero
rows with such a mapping succeeds silently, and with one row the failure
is a KeyError raised during the processing of that row. -/
theorem C9_no_preflight_validation :
    transform dtStubFail cfgNoPid [] = Except.ok [] ∧
    transform dtStubFail cfgNoPid [okRow] =
      Except.error (PyErr.keyError "ProjectID") :=
  ⟨rfl, rfl⟩

/-- C9 amended: no validation happens before row processing.  With a
mapping omitting the ProjectID source, the run fails with KeyError
ProjectID when (and only when) the first row is processed; a run over an
empty row sequence raises nothing. -/
theorem C9_keyerror_on_first_row
    (dtP : String → Except String PyDatetime) (row : RawRow)
    (rows : List RawRow) :
    transform dtP cfgNoPid (row :: rows) =
      Except.error (PyErr.keyError "ProjectID") ∧
    transform dtP cfgNoPid [] = Except.ok [] := by
  constructor
  · have h1 : rowStep dtP cfgNoPid row =
        Except.error (PyErr.keyError "ProjectID") := rfl
    simp [transform, h1]
  · rfl

/-- When the whole LastUpdated column converts, the boolean-mask filter of
the delta endpoint selects exactly the rows whose parsed timestamp is
strictly newer than the threshold. -/
theorem maskFilter_eq_filter (pdP : String → Except String Int) (t : Int) :
    ∀ (rows : List MasterRow) (ts : List (Option Int)),
      seriesToDatetime pdP (rows.map (fun r => r.lastUpdated)) = Except.ok ts →
      maskFilter rows ts t = rows.filter (newerThan pdP t) := by
  intro rows
  induction rows with
  | nil =>
    intro ts h
    cases ts <;> simp [maskFilter, List.filter_nil]
  | cons r rs ih =>
    intro ts h
    simp only [List.map_cons] at h
    cases hlu : r.lastUpdated with
    | none =>
      rw [hlu] at h
      simp only [seriesToDatetime] at h
      cases hrec : seriesToDatetime pdP (rs.map (fun r => r.lastUpdated)) with
      | error e => rw [hrec] at h; simp at h
      | ok ts2 =>
        rw [hrec] at h
        simp only [Except.ok.injEq] at h
        subst h
        simp [maskFilter, List.filter_cons, newerThan, hlu, ih ts2 hrec]
    | some s =>
      rw [hlu] at h
      simp only [seriesToDatetime] at h
      cases hp : pdP s with
      | error e => rw [hp] at h; simp at h
      | ok v =>
        rw [hp] at h
        cases hrec : seriesToDatetime pdP (rs.map (fun r => r.lastUpdated)) with
        | error e => rw [hrec] at h; simp at h
        | ok ts2 =>
          rw [hrec] at h
          simp only [Except.ok.injEq] at h
          subst h
          simp only [maskFilter, List.filter_cons, newerThan, hlu, hp,
            ih ts2 hrec]

/-- C5: for every canonical dataset whose present LastUpdated values all
convert, and every caller-supplied since value, the delta endpoint returns
exactly the rows whose LastUpdated is strictly greater than since, rows
with a null LastUpdated are never included, and an unparsable since value
fails with a 400 client error instead of returning records. -/
theorem C5_delta_exact (pdP : String → Except String Int)
    (rows : List MasterRow) (since : String) :
    (∀ (t : Int) (ts : List (Option Int)), pdP since = Except.ok t →
      seriesToDatetime pdP (rows.map (fun r => r.lastUpdated)) = Except.ok ts →
      delta_projects pdP rows since MOCK_KEY =
        Except.ok (rows.filter (newerThan pdP t)) ∧
      (∀ r ∈ rows.filter (newerThan pdP t), r.lastUpdated ≠ none)) ∧
    (∀ (e : String) (ts : List (Option Int)), pdP since = Except.error e →
      seriesToDatetime pdP (rows.map (fun r => r.lastUpdated)) = Except.ok ts →
      delta_projects pdP rows since MOCK_KEY =
        Except.error (HTTPErr.mk 400
          ("Unable to parse since timestamp: " ++ e))) := by
  constructor
  · intro t ts hs hts
    constructor
    · simp [delta_projects, hts, hs, maskFilter_eq_filter pdP t rows ts hts]
    · intro r hr
      rw [List.mem_filter] at hr
      cases hlu : r.lastUpdated with
      | none =>
        have h2 := hr.2
        simp [newerThan, hlu] at h2
      | some s => simp [hlu]
  · intro e ts hs hts
    simp [delta_projects, hts, hs]

/-- Witness for C5 on the delta example of the spec: with since between
the two timestamps, only the newer row is returned and the null row is
excluded; with an unparsable since, the endpoint fails with status 400. -/
theorem C5_witness :
    delta_projects pdStub [deltaRowOld, deltaRowNew, deltaRowNull]
      "2025-01-01T00:00:00Z" MOCK_KEY = Except.ok [deltaRowNew] ∧
    delta_projects pdStub [deltaRowOld, deltaRowNew, deltaRowNull]
      "garbage" MOCK_KEY =
      Except.error (HTTPErr.mk 400
        "Unable to parse since timestamp: parse error") := by
  constructor
  · have h := ((C5_delta_exact pdStub [deltaRowOld, deltaRowNew, deltaRowNull]
      "2025-01-01T00:00:00Z").1 200 [some 100, some 300, none] rfl rfl).1
    rw [h]
    rfl
  · exact (C5_delta_exact pdStub [deltaRowOld, deltaRowNew, deltaRowNull]
      "garbage").2 "parse error" [some 100, some 300, none] rfl rfl

/-- C6 counterexample: the claim says the literal word and is matched
case-insensitively, but Series.str.replace defaults to case-sensitive
matching, so the source leaves the uppercase AND intact while the
spec-worded variant splits on it. -/
theorem C6_and_case_sensitive :
    collapse_owners (PyVal.str "Alice AND Bob") = "Alice AND Bob" ∧
    collapse_owners_spec (PyVal.str "Alice AND Bob") = "Alice, Bob" :=
  ⟨rfl, rfl⟩

/-- C6 amended: collapse_owners splits on comma, semicolon, pipe and the
lowercase word and surrounded by whitespace (the match is case-sensitive,
so AND is not a delimiter), trims each part, drops empty parts,
deduplicates preserving first-seen order, rejoins with comma-space, and
returns the empty string for an absent value; exhibited on the example
inputs of the spec together with a trim-and-drop-empties case and the
case-sensitivity case. -/
theorem C6_collapse_owners_behaviour :
    collapse_owners (PyVal.str "Alice and Bob; Alice, Carol") =
      "Alice, Bob, Carol" ∧
    collapse_owners PyVal.pyNone = "" ∧
    collapse_owners PyVal.nan = "" ∧
    collapse_owners (PyVal.str "A | B; C, A") = "A, B, C" ∧
    collapse_owners (PyVal.str " A ;; B ") = "A, B" ∧
    collapse_owners (PyVal.str "Alice AND Bob") = "Alice AND Bob" :=
  ⟨rfl, rfl, rfl, rfl, rfl, rfl⟩

theorem hexVal_hexDig (n : Nat) (h : n < 16) : hexVal (hexDig n) = some n := by
  interval_cases n <;> decide

theorem readHex4_toHex4 (n : Nat) (h : n < 65536) (rest : List Char) :
    readHex4 (toHex4 n ++ rest) = some (n, rest) := by
  have h1 := hexVal_hexDig (n / 4096 % 16) (Nat.mod_lt _ (by norm_num))
  have h2 := hexVal_hexDig (n / 256 % 16) (Nat.mod_lt _ (by norm_num))
  have h3 := hexVal_hexDig (n / 16 % 16) (Nat.mod_lt _ (by norm_num))
  have h4 := hexVal_hexDig (n % 16) (Nat.mod_lt _ (by norm_num))
  simp only [toHex4, List.cons_append, List.nil_append, readHex4, h1, h2, h3, h4]
  have : 4096 * (n / 4096 % 16) + 256 * (n / 256 % 16) + 16 * (n / 16 % 16) +
      n % 16 = n := by omega
  rw [this]

theorem char_toNat_valid (c : Char) :
    c.toNat < 55296 ∨ (57343 < c.toNat ∧ c.toNat < 1114112) := c.valid

theorem decodeOne_jsonEsc (c : Char) (rest : List Char) :
    decodeOne (jsonEsc c ++ rest) = some (c, rest) := by
  by_cases h1 : c = '"'
  · subst h1; rfl
  by_cases h2 : c = '\\'
  · subst h2; rfl
  by_cases h3 : c = '\n'
  · subst h3; rfl
  by_cases h4 : c = '\r'
  · subst h4; rfl
  by_cases h5 : c = '\t'
  · subst h5; rfl
  by_cases h6 : c.toNat = 8
  · have hc : c = Char.ofNat 8 := by rw [← h6, Char.ofNat_toNat]
    subst hc; rfl
  by_cases h7 : c.toNat = 12
  · have hc : c = Char.ofNat 12 := by rw [← h7, Char.ofNat_toNat]
    subst hc; rfl
  by_cases h8 : c.toNat < 32 ∨ 126 < c.toNat
  · by_cases h9 : c.toNat < 65536
    · have hesc : jsonEsc c = '\\' :: 'u' :: toHex4 c.toNat := by
        simp [jsonEsc, h1, h2, h3, h4, h5, h6, h7, h8, h9]
      rw [hesc]
      simp only [List.cons_append]
      simp only [decodeOne]
      simp only [if_true]
      have hh : readHex4 (toHex4 c.toNat ++ rest) = some (c.toNat, rest) :=
        readHex4_toHex4 c.toNat h9 rest
      simp only [hh]
      have hv : c.toNat < 55296 ∨ 57343 < c.toNat := by
        rcases char_toNat_valid c with h | ⟨h, _⟩
        · exact Or.inl h
        · exact Or.inr h
      simp only [decodeUCont, if_pos hv, Char.ofNat_toNat]
    · have hval := char_toNat_valid c
      have hub : c.toNat < 1114112 := by omega
      have hlb : 65536 ≤ c.toNat := by omega
      have hesc : jsonEsc c =
          ('\\' :: 'u' :: toHex4 (55296 + (c.toNat - 65536) / 1024)) ++
          ('\\' :: 'u' :: toHex4 (56320 + (c.toNat - 65536) % 1024)) := by
        simp [jsonEsc, h1, h2, h3, h4, h5, h6, h7, h8, h9]
      rw [hesc]
      have hhi : 55296 + (c.toNat - 65536) / 1024 < 65536 := by omega
      have hlo : 56320 + (c.toNat - 65536) % 1024 < 65536 := by
        have := Nat.mod_lt (c.toNat - 65536) (y := 1024) (by norm_num)
        omega
      simp only [List.cons_append, List.append_assoc]
      simp only [decodeOne]
      simp only [if_true]
      rw [readHex4_toHex4 _ hhi]
      have hdiv : (c.toNat - 65536) / 1024 < 1024 := by omega
      simp only [decodeUCont]
      rw [if_neg (by omega)]
      rw [if_pos (by omega)]
      rw [readHex4_toHex4 _ hlo]
      have hm2a : 56320 ≤ 56320 + (c.toNat - 65536) % 1024 := by omega
      have hm2b : 56320 + (c.toNat - 65536) % 1024 ≤ 57343 := by
        have := Nat.mod_lt (c.toNat - 65536) (y := 1024) (by norm_num)
        omega
      simp only [hm2a, hm2b, and_self, if_true]
      have harith : 65536 + ((55296 + (c.toNat - 65536) / 1024 - 55296) * 1024 +
          (56320 + (c.toNat - 65536) % 1024 - 56320)) = c.toNat := by
        have := Nat.div_add_mod (c.toNat - 65536) 1024
        omega
      rw [harith, Char.ofNat_toNat]
  · have hesc : jsonEsc c = [c] := by
      simp [jsonEsc, h1, h2, h3, h4, h5, h6, h7, h8]
    rw [hesc]
    simp only [List.cons_append, List.nil_append]
    simp only [decodeOne]
    rw [if_neg h2]

theorem jsonEsc_head (c : Char) :
    ∃ d t, jsonEsc c = d :: t ∧ d ≠ '"' := by
  unfold jsonEsc
  repeat' split
  all_goals exact ⟨_, _, rfl, by simp_all⟩

theorem escL_nil : escL [] = [] := rfl

theorem escL_cons (c : Char) (cs : List Char) :
    escL (c :: cs) = jsonEsc c ++ escL cs := by
  simp [escL]

theorem decodeString_escL (s : List Char) :
    ∀ (fuel : Nat) (rest : List Char), s.length < fuel →
      decodeString fuel (escL s ++ ('"' :: rest)) = some (s, rest) := by
  induction s with
  | nil =>
    intro fuel rest h
    cases fuel with
    | zero => omega
    | succ f =>
      rw [escL_nil, List.nil_append]
      simp [decodeString]
  | cons c cs ih =>
    intro fuel rest h
    cases fuel with
    | zero => omega
    | succ f =>
      rw [escL_cons, List.append_assoc]
      obtain ⟨d, t, hdt, hd⟩ := jsonEsc_head c
      rw [hdt, List.cons_append]
      simp only [decodeString]
      rw [if_neg hd]
      rw [← List.cons_append, ← hdt]
      rw [decodeOne_jsonEsc]
      have hlen : cs.length < f := by
        simp only [List.length_cons] at h
        omega
      simp only [ih f rest hlen]

theorem escL_length (s : List Char) : s.length ≤ (escL s).length := by
  induction s with
  | nil => simp [escL_nil]
  | cons c cs ih =>
    rw [escL_cons, List.length_append, List.length_cons]
    obtain ⟨d, t, hdt, _⟩ := jsonEsc_head c
    rw [hdt]
    simp only [List.length_cons]
    omega

theorem decodeCell_enc (v : Option String) (rest : List Char) :
    decodeCell (encCellChars v ++ rest) = some (v, rest) := by
  cases v with
  | none => rfl
  | some s =>
    show decodeCell (('"' :: (escL s.data ++ ['"'])) ++ rest) = _
    rw [List.cons_append, List.append_assoc]
    simp only [List.singleton_append]
    simp only [decodeCell]
    have hlen : s.data.length < (escL s.data ++ '"' :: rest).length + 1 := by
      have := escL_length s.data
      simp only [List.length_append, List.length_cons]
      omega
    rw [decodeString_escL s.data _ rest hlen]

theorem stripLit_append (p : List Char) : ∀ l, stripLit p (p ++ l) = some l := by
  induction p with
  | nil => intro l; rfl
  | cons c cs ih => intro l; simp [stripLit, ih]

theorem stripLit_self (p : List Char) : stripLit p p = some [] := by
  have := stripLit_append p []
  simpa using this

theorem decodeRow_serializeTuple
    (t : Option String × Option String × Option String × Option String ×
      Option String × Option String) :
    decodeRow (serializeTuple t) = some t := by
  obtain ⟨b, n, o, p, s, e⟩ := t
  simp only [serializeTuple, decodeRow, stripLit_append, decodeCell_enc,
    stripLit_self]

/-- C4: the row fingerprint of the mock service ignores exactly the
LastUpdated column: two records identical in all other fields (the
business fields) have identical digests; the fingerprint is deterministic;
and two records differing in any business field, including the extra_json
passthrough bag, serialize to different payloads and therefore have
different digests for every injective digest function (collision
resistance of SHA-256 modelled as injectivity of the injected sha). -/
theorem C4_fingerprint (sha : String → String) (r1 r2 : MasterRow) :
    (businessFields r1 = businessFields r2 →
      hash_row sha r1 = hash_row sha r2) ∧
    hash_row sha r1 = hash_row sha r1 ∧
    (Function.Injective sha → businessFields r1 ≠ businessFields r2 →
      hash_row sha r1 ≠ hash_row sha r2) := by
  refine ⟨?_, rfl, ?_⟩
  · intro h
    unfold hash_row serializeRow
    rw [h]
  · intro hinj hne hcontra
    apply hne
    have h1 : serializeRow r1 = serializeRow r2 := hinj hcontra
    have h2 : serializeTuple (businessFields r1) =
        serializeTuple (businessFields r2) := congrArg String.data h1
    have h3 := congrArg decodeRow h2
    rw [decodeRow_serializeTuple, decodeRow_serializeTuple] at h3
    exact Option.some.inj h3

/-- Witness for C4: concrete rows differing only in LastUpdated hash
alike under an injective digest, and rows differing in the extra bag hash
differently. -/
theorem C4_witness :
    hash_row id deltaRowOld =
      hash_row id { deltaRowOld with lastUpdated := none } ∧
    hash_row id deltaRowOld ≠
      hash_row id { deltaRowOld with extraJson := some "\x7b\"note\": 1\x7d" } :=
  ⟨(C4_fingerprint id deltaRowOld
      { deltaRowOld with lastUpdated := none }).1 rfl,
   (C4_fingerprint id deltaRowOld
      { deltaRowOld with extraJson := some "\x7b\"note\": 1\x7d" }).2.2
      (fun _ _ h => h) (by decide)⟩

theorem replaceSemiPipe_no_delims (l : List Char) :
    ∀ c ∈ replaceSemiPipe l, c ≠ ';' ∧ c ≠ '|' := by
  intro c hc
  rw [replaceSemiPipe, List.mem_map] at hc
  obtain ⟨a, _, ha⟩ := hc
  by_cases h : a = ';' ∨ a = '|'
  · rw [if_pos h] at ha
    subst ha
    exact ⟨by decide, by decide⟩
  · rw [if_neg h] at ha
    subst ha
    push_neg at h
    exact h

theorem replaceSemiPipe_id (l : List Char)
    (h : ∀ c ∈ l, c ≠ ';' ∧ c ≠ '|') : replaceSemiPipe l = l := by
  induction l with
  | nil => rfl
  | cons c cs ih =>
    have hc := h c (by simp)
    simp only [replaceSemiPipe, List.map_cons]
    rw [if_neg (by tauto)]
    have := ih (fun d hd => h d (by simp [hd]))
    simp only [replaceSemiPipe] at this
    rw [this]

theorem splitOnComma_ne_nil (l : List Char) : splitOnComma l ≠ [] := by
  cases l with
  | nil => simp [splitOnComma]
  | cons c cs =>
    simp only [splitOnComma]
    by_cases h : c = ','
    · simp [h]
    · rw [if_neg h]
      cases hs : splitOnComma cs <;> simp

theorem splitOnComma_mem (l : List Char) :
    ∀ p ∈ splitOnComma l, ∀ c ∈ p, c ∈ l ∧ c ≠ ',' := by
  induction l with
  | nil =>
    intro p hp c hc
    simp [splitOnComma] at hp
    subst hp
    simp at hc
  | cons a as ih =>
    intro p hp c hc
    simp only [splitOnComma] at hp
    by_cases h : a = ','
    · rw [if_pos h] at hp
      rcases List.mem_cons.mp hp with h1 | h1
      · subst h1; simp at hc
      · have := ih p h1 c hc
        exact ⟨by simp [this.1], this.2⟩
    · rw [if_neg h] at hp
      cases hs : splitOnComma as with
      | nil => exact absurd hs (splitOnComma_ne_nil as)
      | cons q qs =>
        rw [hs] at hp
        rcases List.mem_cons.mp hp with h1 | h1
        · subst h1
          rcases List.mem_cons.mp hc with h2 | h2
          · subst h2; exact ⟨by simp, h⟩
          · have := ih q (by rw [hs]; simp) c h2
            exact ⟨by simp [this.1], this.2⟩
        · have := ih p (by rw [hs]; simp [h1]) c hc
          exact ⟨by simp [this.1], this.2⟩

theorem splitOnComma_append_comma (p : List Char) (t : List Char)
    (hp : ',' ∉ p) : splitOnComma (p ++ ',' :: t) = p :: splitOnComma t := by
  induction p with
  | nil => simp [splitOnComma]
  | cons c p' ih =>
    have hc : c ≠ ',' := by
      intro hh; exact hp (by simp [hh])
    simp only [List.cons_append, splitOnComma]
    rw [if_neg hc]
    rw [show p'.append (',' :: t) = p' ++ ',' :: t from rfl,
      ih (fun hh => hp (by simp [hh]))]

theorem splitOnComma_no_comma (l : List Char) (h : ',' ∉ l) :
    splitOnComma l = [l] := by
  induction l with
  | nil => rfl
  | cons c cs ih =>
    have hc : c ≠ ',' := by
      intro hh; exact h (by simp [hh])
    simp only [splitOnComma]
    rw [if_neg hc]
    rw [ih (fun hh => h (by simp [hh]))]

theorem mem_joinSep (sep : List Char) :
    ∀ (ps : List (List Char)) (c : Char), c ∈ joinSep sep ps →
      c ∈ sep ∨ ∃ p ∈ ps, c ∈ p := by
  intro ps
  induction ps with
  | nil => intro c hc; simp [joinSep] at hc
  | cons p ps ih =>
    intro c hc
    cases ps with
    | nil =>
      simp only [joinSep] at hc
      exact Or.inr ⟨p, by simp, hc⟩
    | cons q qs =>
      simp only [joinSep, List.mem_append] at hc
      rcases hc with (hc | hc) | hc
      · exact Or.inr ⟨p, by simp, hc⟩
      · exact Or.inl hc
      · rcases ih c hc with h | ⟨r, hr, hcr⟩
        · exact Or.inl h
        · exact Or.inr ⟨r, by simp [List.mem_cons.mp hr], hcr⟩

theorem splitOnComma_joinSep (p : List Char) :
    ∀ (ps : List (List Char)), ',' ∉ p → (∀ q ∈ ps, ',' ∉ q) →
      splitOnComma (joinSep [',', ' '] (p :: ps)) =
        p :: ps.map (fun q => ' ' :: q) := by
  intro ps
  induction ps generalizing p with
  | nil =>
    intro hp _
    simp only [joinSep, List.map_nil]
    exact splitOnComma_no_comma p hp
  | cons q qs ih =>
    intro hp hqs
    have hjoin : joinSep [',', ' '] (p :: q :: qs) =
        p ++ ',' :: (' ' :: joinSep [',', ' '] (q :: qs)) := by
      simp [joinSep]
    rw [hjoin, splitOnComma_append_comma p _ hp]
    have hsp : splitOnComma (' ' :: joinSep [',', ' '] (q :: qs)) =
        (' ' :: q) :: qs.map (fun r => ' ' :: r) := by
      have hrec := ih q (hqs q (by simp)) (fun r hr => hqs r (by simp [hr]))
      simp only [splitOnComma]
      rw [if_neg (by decide)]
      rw [hrec]
    rw [hsp]
    simp

theorem pyStrip_nil : pyStrip [] = [] := rfl

theorem pyStrip_cons_space (c : Char) (l : List Char)
    (hc : isPySpace c = true) : pyStrip (c :: l) = pyStrip l := by
  unfold pyStrip
  rw [List.dropWhile_cons_of_pos hc]

theorem pyStrip_subset (l : List Char) : ∀ c ∈ pyStrip l, c ∈ l := by
  intro c hc
  unfold pyStrip at hc
  rw [List.mem_reverse] at hc
  have h1 := List.dropWhile_subset (l := (List.dropWhile isPySpace l).reverse)
    isPySpace hc
  rw [List.mem_reverse] at h1
  exact List.dropWhile_subset isPySpace h1

theorem dedupAux_subset :
    ∀ (ps : List (List Char)) (seen : List (List Char)) (q : List Char),
      q ∈ dedupAux seen ps → q ∈ ps := by
  intro ps
  induction ps with
  | nil => intro seen q hq; simp [dedupAux] at hq
  | cons p ps ih =>
    intro seen q hq
    simp only [dedupAux] at hq
    by_cases h : p = [] ∨ p ∈ seen
    · rw [if_pos h] at hq
      exact List.mem_cons.mpr (Or.inr (ih seen q hq))
    · rw [if_neg h] at hq
      rcases List.mem_cons.mp hq with h1 | h1
      · simp [h1]
      · exact List.mem_cons.mpr (Or.inr (ih (p :: seen) q h1))

theorem dedupAux_fresh :
    ∀ (ps : List (List Char)) (seen : List (List Char)) (q : List Char),
      q ∈ dedupAux seen ps → q ∉ seen ∧ q ≠ [] := by
  intro ps
  induction ps with
  | nil => intro seen q hq; simp [dedupAux] at hq
  | cons p ps ih =>
    intro seen q hq
    simp only [dedupAux] at hq
    by_cases h : p = [] ∨ p ∈ seen
    · rw [if_pos h] at hq
      exact ih seen q hq
    · rw [if_neg h] at hq
      push_neg at h
      rcases List.mem_cons.mp hq with h1 | h1
      · subst h1
        exact ⟨h.2, h.1⟩
      · have := ih (p :: seen) q h1
        exact ⟨fun hin => this.1 (by simp [hin]), this.2⟩

theorem dedupAux_nodup :
    ∀ (ps : List (List Char)) (seen : List (List Char)),
      (dedupAux seen ps).Nodup := by
  intro ps
  induction ps with
  | nil => intro seen; simp [dedupAux]
  | cons p ps ih =>
    intro seen
    simp only [dedupAux]
    by_cases h : p = [] ∨ p ∈ seen
    · rw [if_pos h]; exact ih seen
    · rw [if_neg h]
      rw [List.nodup_cons]
      refine ⟨fun hin => ?_, ih (p :: seen)⟩
      have := dedupAux_fresh ps (p :: seen) p hin
      exact this.1 (by simp)

theorem dedupAux_id :
    ∀ (ps : List (List Char)) (seen : List (List Char)),
      (∀ p ∈ ps, p ∉ seen ∧ p ≠ []) → ps.Nodup →
      dedupAux seen ps = ps := by
  intro ps
  induction ps with
  | nil => intro seen _ _; rfl
  | cons p ps ih =>
    intro seen hfresh hnd
    have hp := hfresh p (by simp)
    simp only [dedupAux]
    rw [if_neg (by tauto)]
    rw [List.nodup_cons] at hnd
    congr 1
    apply ih (p :: seen) ?_ hnd.2
    intro q hq
    have := hfresh q (by simp [hq])
    refine ⟨fun hin => ?_, this.2⟩
    rcases List.mem_cons.mp hin with h1 | h1
    · subst h1; exact hnd.1 hq
    · exact this.1 h1

theorem map_space_strip (xs : List (List Char))
    (h : ∀ p ∈ xs, pyStrip p = p) :
    (xs.map (fun q => ' ' :: q)).map pyStrip = xs := by
  induction xs with
  | nil => rfl
  | cons q qs ih =>
    simp only [List.map_cons]
    rw [pyStrip_cons_space ' ' q (by decide), h q (by simp),
      ih (fun p hp => h p (by simp [hp]))]

theorem joinSep_clean_round (ps : List (List Char))
    (f1 : ∀ p ∈ ps, p ≠ [])
    (f2 : ps.Nodup)
    (f3 : ∀ p ∈ ps, pyStrip p = p)
    (f4 : ∀ p ∈ ps, ∀ c ∈ p, c ≠ ',' ∧ c ≠ ';' ∧ c ≠ '|')
    (h : replaceAnd (joinSep [',', ' '] ps) = joinSep [',', ' '] ps) :
    collapseCore (joinSep [',', ' '] ps) = joinSep [',', ' '] ps := by
  unfold collapseCore
  rw [h]
  rw [replaceSemiPipe_id _ ?side]
  case side =>
    intro c hc
    rcases mem_joinSep _ ps c hc with hsep | ⟨p, hp, hcp⟩
    · rcases List.mem_cons.mp hsep with h1 | h1
      · subst h1; exact ⟨by decide, by decide⟩
      · rcases List.mem_cons.mp h1 with h2 | h2
        · subst h2; exact ⟨by decide, by decide⟩
        · simp at h2
    · exact ⟨(f4 p hp c hcp).2.1, (f4 p hp c hcp).2.2⟩
  cases ps with
  | nil => rfl
  | cons p ps' =>
    have hpc : ',' ∉ p := fun hc => (f4 p (by simp) ',' hc).1 rfl
    have hqc : ∀ q ∈ ps', ',' ∉ q :=
      fun q hq hc => (f4 q (by simp [hq]) ',' hc).1 rfl
    rw [splitOnComma_joinSep p ps' hpc hqc]
    simp only [List.map_cons]
    rw [f3 p (by simp)]
    rw [map_space_strip ps' (fun q hq => f3 q (by simp [hq]))]
    have hclean : cleanedParts (p :: ps') = p :: ps' := by
      apply dedupAux_id (p :: ps') []
      · intro q hq
        exact ⟨by simp, f1 q hq⟩
      · exact f2
    rw [hclean]

theorem collapseCore_idem (l : List Char)
    (h : replaceAnd (collapseCore l) = collapseCore l) :
    collapseCore (collapseCore l) = collapseCore l := by
  have hco : collapseCore l = joinSep [',', ' ']
      (cleanedParts
        ((splitOnComma (replaceSemiPipe (replaceAnd l))).map pyStrip)) := rfl
  set PS := cleanedParts
    ((splitOnComma (replaceSemiPipe (replaceAnd l))).map pyStrip) with hPS
  have fsub : ∀ p ∈ PS,
      ∃ x ∈ splitOnComma (replaceSemiPipe (replaceAnd l)), p = pyStrip x := by
    intro p hp
    have h1 := dedupAux_subset _ _ _ hp
    rw [List.mem_map] at h1
    obtain ⟨x, hx, hpx⟩ := h1
    exact ⟨x, hx, hpx.symm⟩
  have f1 : ∀ p ∈ PS, p ≠ [] := fun p hp => (dedupAux_fresh _ _ _ hp).2
  have f2 : PS.Nodup := dedupAux_nodup _ _
  have f3 : ∀ p ∈ PS, pyStrip p = p := by
    intro p hp
    obtain ⟨x, _, hpx⟩ := fsub p hp
    rw [hpx, pyStrip_idem]
  have f4 : ∀ p ∈ PS, ∀ c ∈ p, c ≠ ',' ∧ c ≠ ';' ∧ c ≠ '|' := by
    intro p hp c hc
    obtain ⟨x, hx, hpx⟩ := fsub p hp
    rw [hpx] at hc
    have hcx := pyStrip_subset x c hc
    have hsm := splitOnComma_mem _ x hx c hcx
    have hnd := replaceSemiPipe_no_delims _ c hsm.1
    exact ⟨hsm.2, hnd.1, hnd.2⟩
  rw [hco] at h ⊢
  exact joinSep_clean_round PS f1 f2 f3 f4 h

/-- C10 counterexample: collapse_owners is not idempotent.  On the input
X,and Y the first pass does not split (the word and is not preceded by
whitespace there), but joining with comma-space creates a whitespace
surrounded and, which the second pass then splits. -/
theorem C10_not_idempotent :
    collapse_owners (PyVal.str "X,and Y") = "X, and Y" ∧
    collapse_owners (PyVal.str (collapse_owners (PyVal.str "X,and Y"))) =
      "X, Y" :=
  ⟨rfl, rfl⟩

/-- C10 amended: collapse_owners is idempotent on every input whose
result is left unchanged by the whitespace-and-whitespace replacement
(that is, whose result contains no whitespace-surrounded lowercase and);
re-application can only differ when joining with comma-space has created
such a new and delimiter. -/
theorem C10_conditional_idempotent (s : String)
    (h : replaceAnd (collapse_owners (PyVal.str s)).data =
      (collapse_owners (PyVal.str s)).data) :
    collapse_owners (PyVal.str (collapse_owners (PyVal.str s))) =
      collapse_owners (PyVal.str s) := by
  have h2 : replaceAnd (collapseCore s.data) = collapseCore s.data := h
  show String.mk (collapseCore (collapseCore s.data)) =
    String.mk (collapseCore s.data)
  rw [collapseCore_idem s.data h2]

/-- Witness for C10 at a concrete already-normalized owner string. -/
theorem C10_witness :
    replaceAnd (collapse_owners (PyVal.str "Alice, Bob")).data =
      (collapse_owners (PyVal.str "Alice, Bob")).data ∧
    collapse_owners (PyVal.str (collapse_owners (PyVal.str "Alice, Bob"))) =
      collapse_owners (PyVal.str "Alice, Bob") :=
  ⟨by decide, C10_conditional_idempotent "Alice, Bob" (by decide)⟩
